import Mathlib

/-!
Verification of the nsf6 heatmap core: the tile request builder and mock
grid aligner (`web/src/ts/api/heatmap.ts`), the adaptive poller
(`web/src/ts/helpers/adjustableUpdater.ts`) and the time slider state
(`web/src/ts/components/timeSlider.ts`), shallowly embedded over ℚ.
JS numbers are modelled as rationals; `Math.random()` is modelled as an
explicit function parameter supplying the random value drawn for each cell.
-/

/-- `MapPoint` from `web/src/ts/types/common.ts`: `{lat, long}`. -/
structure MapPoint where
  lat : ℚ
  long : ℚ
deriving DecidableEq, Repr

/-- `MapRectangle` from `web/src/ts/types/common.ts`. -/
structure MapRectangle where
  topLeft : MapPoint
  bottomRight : MapPoint
deriving DecidableEq, Repr

/-- `HeatmapRequest` from `web/src/ts/types/heatmap.ts`; the two `Date`
fields are modelled as epoch milliseconds. -/
structure HeatmapRequest where
  area : MapRectangle
  timeStart : ℤ
  timeEnd : ℤ
  tileWidth : ℚ
  tileHeight : ℚ
deriving DecidableEq, Repr

/-- `HeatmapRectangle` from `web/src/ts/types/heatmap.ts`: the declared type
requires `count` and `neighborCount`. The `neighborCount` field is modelled
as `Option ℚ` because a producer may omit the property, in which case the
JavaScript object carries `undefined` there (`none`); a present numeric
value `x` is `some x`. -/
structure HeatmapRectangle where
  count : ℤ
  neighborCount : Option ℚ
  topLeft : MapPoint
  bottomRight : MapPoint
deriving DecidableEq, Repr

/-- `Heatmap` from `web/src/ts/types/heatmap.ts`. -/
structure Heatmap where
  data : List HeatmapRectangle
deriving DecidableEq, Repr

/-- `HeatmapResponse` from `web/src/ts/types/heatmap.ts`:
`{ heatmap: Heatmap | null }`. -/
structure HeatmapResponse where
  heatmap : Option Heatmap
deriving DecidableEq, Repr

/-- The per-axis corner swaps at the start of `makeRequest`
(`api/heatmap.ts` lines 44-50): if `topLeft.lat < bottomRight.lat` swap the
latitudes, and if `topLeft.long > bottomRight.long` swap the longitudes.
The source performs these as in-place assignments into the two caller
objects; the returned pair is the final state of those two objects.
`swapLatIfNeeded` is the statement `if (topLeft.lat < bottomRight.lat)
[swap latitudes]`. -/
def swapLatIfNeeded (p : MapPoint × MapPoint) : MapPoint × MapPoint :=
  if p.1.lat < p.2.lat then
    ({ p.1 with lat := p.2.lat }, { p.2 with lat := p.1.lat })
  else p

/-- `if (topLeft.long > bottomRight.long) [swap longitudes]`. -/
def swapLongIfNeeded (p : MapPoint × MapPoint) : MapPoint × MapPoint :=
  if p.1.long > p.2.long then
    ({ p.1 with long := p.2.long }, { p.2 with long := p.1.long })
  else p

def normalizePair (topLeft bottomRight : MapPoint) : MapPoint × MapPoint :=
  swapLongIfNeeded (swapLatIfNeeded (topLeft, bottomRight))

/-- `makeRequest` from `api/heatmap.ts` (lines 35-64). Because the corner
swaps mutate the caller's two point objects, the embedding returns both the
final state of those objects (first component) and the built request
(second component). `tileWidth = (bottomRight.long - topLeft.long)/countX`,
`tileHeight = (topLeft.lat - bottomRight.lat)/countY` on the swapped
corners; there is no validation of `countX`/`countY` (ℚ division by zero
yields 0 here, where the JS division yields `Infinity`/`NaN`). -/
def makeRequest (topLeft bottomRight : MapPoint) (countX countY : ℚ)
    (timeStart timeEnd : ℤ) : (MapPoint × MapPoint) × HeatmapRequest :=
  let p := normalizePair topLeft bottomRight
  ((p.1, p.2),
    { area := ⟨p.1, p.2⟩
      timeStart := timeStart
      timeEnd := timeEnd
      tileWidth := (p.2.long - p.1.long) / countX
      tileHeight := (p.1.lat - p.2.lat) / countY })

/-- `alignStart` from `getMockHeatmap` (`api/heatmap.ts` lines 73-77):
`step > 0 ? Math.floor(value/step)*step : Math.ceil(value/step)*step`. -/
def alignStart (value step : ℚ) : ℚ :=
  if 0 < step then (⌊value / step⌋ : ℤ) * step else (⌈value / step⌉ : ℤ) * step

/-- The loop guard of `getMockHeatmap`'s walks:
`step > 0 ? value < end : value > end` (`api/heatmap.ts` lines 88-91). -/
def walkCont (step endv cur : ℚ) : Prop :=
  if 0 < step then cur < endv else endv < cur

instance (step endv cur : ℚ) : Decidable (walkCont step endv cur) := by
  unfold walkCont
  infer_instance

/-- For a nonzero step, the loop guard holds exactly when the signed
distance still to travel, measured in steps, is positive. -/
theorem walkCont_iff (step endv cur : ℚ) (hs : step ≠ 0) :
    walkCont step endv cur ↔ 0 < (endv - cur) / step := by
  unfold walkCont
  rcases hs.lt_or_lt with hstep | hstep
  · rw [if_neg (by linarith)]
    constructor
    · intro h
      exact div_pos_of_neg_of_neg (by linarith) hstep
    · intro h
      have h2 := mul_neg_of_pos_of_neg h hstep
      rw [div_mul_cancel₀ _ hs] at h2
      linarith
  · rw [if_pos hstep]
    constructor
    · intro h
      exact div_pos (by linarith) hstep
    · intro h
      have h2 := mul_pos h hstep
      rw [div_mul_cancel₀ _ hs] at h2
      linarith

/-- One `for` loop of `getMockHeatmap`
(`for (let v = start; (step>0 ? v<end : v>end); v += step)`), returning the
list of loop-variable values in order. -/
def walk (step endv : ℚ) (hs : step ≠ 0) (cur : ℚ) : List ℚ :=
  if h : walkCont step endv cur then
    cur :: walk step endv hs (cur + step)
  else []
termination_by (⌈(endv - cur) / step⌉).toNat
decreasing_by
  have hq : 0 < (endv - cur) / step := (walkCont_iff step endv cur hs).mp h
  have hstep1 : (endv - (cur + step)) / step = (endv - cur) / step - 1 := by
    field_simp
    ring
  have hceil : ⌈(endv - (cur + step)) / step⌉ = ⌈(endv - cur) / step⌉ - 1 := by
    rw [hstep1, Int.ceil_sub_one]
  have hpos : 0 < ⌈(endv - cur) / step⌉ := Int.ceil_pos.mpr hq
  rw [hceil]
  omega

/-- The loop values in closed form: `walk` visits `cur + k * step` for
`k < ⌈(endv - cur)/step⌉`. -/
theorem walk_eq (step endv : ℚ) (hs : step ≠ 0) (cur : ℚ) :
    walk step endv hs cur =
      (List.range (⌈(endv - cur) / step⌉).toNat).map
        (fun k : ℕ => cur + (k : ℚ) * step) := by
  generalize hn : (⌈(endv - cur) / step⌉).toNat = n
  induction n generalizing cur with
  | zero =>
    rw [walk, dif_neg]
    · simp
    · intro h
      have hq : 0 < (endv - cur) / step := (walkCont_iff step endv cur hs).mp h
      have hpos : 0 < ⌈(endv - cur) / step⌉ := Int.ceil_pos.mpr hq
      omega
  | succ n ih =>
    have hq : 0 < (endv - cur) / step := by
      by_contra hq
      push_neg at hq
      have : ⌈(endv - cur) / step⌉ ≤ 0 := Int.ceil_le.mpr (by exact_mod_cast hq)
      omega
    have hcond : walkCont step endv cur := (walkCont_iff step endv cur hs).mpr hq
    rw [walk, dif_pos hcond]
    have hstep1 : (endv - (cur + step)) / step = (endv - cur) / step - 1 := by
      field_simp
      ring
    have hceil : ⌈(endv - (cur + step)) / step⌉ = ⌈(endv - cur) / step⌉ - 1 := by
      rw [hstep1, Int.ceil_sub_one]
    have hn' : (⌈(endv - (cur + step)) / step⌉).toNat = n := by
      rw [hceil]
      omega
    rw [ih (cur + step) hn', List.range_succ_eq_map, List.map_cons, List.map_map]
    have hfun : ((fun k : ℕ => cur + (k : ℚ) * step) ∘ Nat.succ) =
        fun k : ℕ => (cur + step) + (k : ℚ) * step := by
      funext k
      simp only [Function.comp_apply]
      push_cast
      ring
    rw [hfun]
    norm_num

/-- The body of `getMockHeatmap`'s nested loop (`api/heatmap.ts` lines
94-128) for one cell origin `(lat, lng)`: compute the canonical corner pair
of the cell `[origin, origin+step]` per axis, skip the cell when it lies
entirely outside the requested area (the three `continue` guards), and
otherwise emit the tile. `rand lat lng` models the `Math.random()` draw for
this cell; the pushed object has no `neighborCount` property (`none`). -/
def mkCell (rand : ℚ → ℚ → ℚ) (area : MapRectangle) (latStep longStep lat lng : ℚ) :
    Option HeatmapRectangle :=
  let nextLat := lat + latStep
  let nextLong := lng + longStep
  let topLat := max lat nextLat
  let bottomLat := min lat nextLat
  let leftLong := min lng nextLong
  let rightLong := max lng nextLong
  if topLat < min area.topLeft.lat area.bottomRight.lat ∧
      bottomLat < min area.topLeft.lat area.bottomRight.lat then none
  else if bottomLat > max area.topLeft.lat area.bottomRight.lat ∧
      topLat > max area.topLeft.lat area.bottomRight.lat then none
  else if rightLong < min area.topLeft.long area.bottomRight.long ∨
      leftLong > max area.topLeft.long area.bottomRight.long then none
  else some
    { count := ⌊rand lat lng * 100⌋
      neighborCount := none
      topLeft := ⟨topLat, leftLong⟩
      bottomRight := ⟨bottomLat, rightLong⟩ }

/-- The nested loop of `getMockHeatmap` (`api/heatmap.ts` lines 94-128):
walk latitude from the aligned start toward `bottomRight.lat` by
`tileHeight`, nest the longitude walk the same way, and collect the emitted
cells in order. -/
def mockCells (rand : ℚ → ℚ → ℚ) (req : HeatmapRequest)
    (hw : req.tileWidth ≠ 0) (hh : req.tileHeight ≠ 0) : List HeatmapRectangle :=
  (walk req.tileHeight req.area.bottomRight.lat hh
      (alignStart req.area.topLeft.lat req.tileHeight)).bind fun lat =>
    (walk req.tileWidth req.area.bottomRight.long hw
        (alignStart req.area.topLeft.long req.tileWidth)).filterMap fun lng =>
      mkCell rand req.area req.tileHeight req.tileWidth lat lng

/-- The tile list produced by `getMockHeatmap` (`api/heatmap.ts` lines
66-133): the degenerate guard `tileWidth === 0 || tileHeight === 0` yields
an empty list, otherwise the nested aligned walk runs. -/
def mockHeatmapData (rand : ℚ → ℚ → ℚ) (req : HeatmapRequest) : List HeatmapRectangle :=
  if h : req.tileWidth = 0 ∨ req.tileHeight = 0 then []
  else mockCells rand req (fun e => h (Or.inl e)) (fun e => h (Or.inr e))

/-- `getMockHeatmap` from `api/heatmap.ts`: resolves with
`{heatmap: {data}}` (the 200 ms `setTimeout` before resolution is not
modelled; the resolved value is). -/
def getMockHeatmap (rand : ℚ → ℚ → ℚ) (req : HeatmapRequest) : HeatmapResponse :=
  ⟨some ⟨mockHeatmapData rand req⟩⟩

theorem mockHeatmapData_eq (rand : ℚ → ℚ → ℚ) (req : HeatmapRequest)
    (hw : req.tileWidth ≠ 0) (hh : req.tileHeight ≠ 0) :
    mockHeatmapData rand req = mockCells rand req hw hh := by
  rw [mockHeatmapData, dif_neg (by tauto)]

/-- Number of latitude rows walked for a request. -/
def nLat (req : HeatmapRequest) : ℕ :=
  (⌈(req.area.bottomRight.lat - alignStart req.area.topLeft.lat req.tileHeight) /
      req.tileHeight⌉).toNat

/-- Number of longitude columns walked for a request. -/
def nLong (req : HeatmapRequest) : ℕ :=
  (⌈(req.area.bottomRight.long - alignStart req.area.topLeft.long req.tileWidth) /
      req.tileWidth⌉).toNat

/-- Latitude origin of the `k`-th walked row. -/
def latCell (req : HeatmapRequest) (k : ℕ) : ℚ :=
  alignStart req.area.topLeft.lat req.tileHeight + (k : ℚ) * req.tileHeight

/-- Longitude origin of the `j`-th walked column. -/
def longCell (req : HeatmapRequest) (j : ℕ) : ℚ :=
  alignStart req.area.topLeft.long req.tileWidth + (j : ℚ) * req.tileWidth

theorem mem_mockCells (rand : ℚ → ℚ → ℚ) (req : HeatmapRequest)
    (hw : req.tileWidth ≠ 0) (hh : req.tileHeight ≠ 0) (t : HeatmapRectangle) :
    t ∈ mockCells rand req hw hh ↔
      ∃ k < nLat req, ∃ j < nLong req,
        mkCell rand req.area req.tileHeight req.tileWidth
          (latCell req k) (longCell req j) = some t := by
  unfold mockCells
  rw [walk_eq, walk_eq]
  simp only [List.mem_bind, List.mem_filterMap, List.mem_map, List.mem_range]
  constructor
  · rintro ⟨lat, ⟨k, hk, rfl⟩, lng, ⟨j, hj, rfl⟩, hcell⟩
    exact ⟨k, hk, j, hj, hcell⟩
  · rintro ⟨k, hk, j, hj, hcell⟩
    exact ⟨latCell req k, ⟨k, hk, rfl⟩, longCell req j, ⟨j, hj, rfl⟩, hcell⟩

/-- For a positive step, the aligned start is at or before the value. -/
theorem alignStart_le (v s : ℚ) (hs : 0 < s) : alignStart v s ≤ v := by
  unfold alignStart
  rw [if_pos hs]
  have h1 := mul_le_mul_of_nonneg_right (Int.floor_le (v / s)) hs.le
  rwa [div_mul_cancel₀ _ (ne_of_gt hs)] at h1

/-- The aligned start is an integer multiple of the step. -/
theorem alignStart_intMul (v s : ℚ) : ∃ z : ℤ, alignStart v s = (z : ℚ) * s := by
  unfold alignStart
  split_ifs
  · exact ⟨⌊v / s⌋, rfl⟩
  · exact ⟨⌈v / s⌉, rfl⟩

/-- One-dimensional coverage of the aligned walk with a positive step: every
`x` in `[v, e]` lies in the `k`-th cell `[start + k*s, start + (k+1)*s]` for
some walked index `k`. -/
theorem cell_cover (s : ℚ) (hs : 0 < s) (v e x : ℚ)
    (hvx : v ≤ x) (hxe : x ≤ e) (hve : v < e) :
    ∃ k : ℕ, k < (⌈(e - alignStart v s) / s⌉).toNat ∧
      alignStart v s + (k : ℚ) * s ≤ x ∧ x ≤ alignStart v s + ((k : ℚ) + 1) * s := by
  have hc : alignStart v s ≤ v := alignStart_le v s hs
  set c := alignStart v s with hcdef
  have hfl0 : (0 : ℤ) ≤ ⌊(x - c) / s⌋ :=
    Int.floor_nonneg.mpr (div_nonneg (by linarith) hs.le)
  set m : ℤ := ⌊(x - c) / s⌋ with hmdef
  have hm1 : (m : ℚ) * s ≤ x - c := (le_div_iff₀ hs).mp (Int.floor_le _)
  have hm2 : x - c < ((m : ℚ) + 1) * s := by
    have h2 := Int.lt_floor_add_one ((x - c) / s)
    have h3 := (div_lt_iff₀ hs).mp h2
    push_cast at h3 ⊢
    linarith
  by_cases hcase : c + (m : ℚ) * s < e
  · refine ⟨m.toNat, ?_, ?_, ?_⟩
    · have h4 : m < ⌈(e - c) / s⌉ := by
        apply Int.lt_ceil.mpr
        rw [lt_div_iff₀ hs]
        linarith
      omega
    · have hcast : ((m.toNat : ℕ) : ℚ) = (m : ℚ) := by
        exact_mod_cast congrArg (Int.cast : ℤ → ℚ) (Int.toNat_of_nonneg hfl0)
      rw [hcast]
      linarith
    · have hcast : ((m.toNat : ℕ) : ℚ) = (m : ℚ) := by
        exact_mod_cast congrArg (Int.cast : ℤ → ℚ) (Int.toNat_of_nonneg hfl0)
      rw [hcast]
      linarith
  · push_neg at hcase
    have hxeq : x = c + (m : ℚ) * s := le_antisymm (by linarith) (by linarith)
    have heeq : e = c + (m : ℚ) * s := le_antisymm hcase (by linarith)
    have hmpos : 1 ≤ m := by
      have h5 : (0 : ℚ) < (m : ℚ) * s := by linarith
      have h6 : (0 : ℚ) < (m : ℚ) := by nlinarith
      have h7 : (0 : ℤ) < m := by exact_mod_cast h6
      omega
    have hceq : ⌈(e - c) / s⌉ = m := by
      rw [heeq]
      rw [show c + (m : ℚ) * s - c = (m : ℚ) * s by ring]
      rw [mul_div_cancel_right₀ _ (ne_of_gt hs)]
      exact Int.ceil_intCast m
    refine ⟨(m - 1).toNat, ?_, ?_, ?_⟩
    · rw [hceq]
      omega
    · have hcast : (((m - 1).toNat : ℕ) : ℚ) = (m : ℚ) - 1 := by
        have h8 := Int.toNat_of_nonneg (by omega : (0 : ℤ) ≤ m - 1)
        have h9 := congrArg (Int.cast : ℤ → ℚ) h8
        push_cast at h9
        linarith
      rw [hcast]
      nlinarith
    · have hcast : (((m - 1).toNat : ℕ) : ℚ) = (m : ℚ) - 1 := by
        have h8 := Int.toNat_of_nonneg (by omega : (0 : ℤ) ≤ m - 1)
        have h9 := congrArg (Int.cast : ℤ → ℚ) h8
        push_cast at h9
        linarith
      rw [hcast]
      nlinarith

/-- Picking a point of a nonempty intersection of two closed intervals by
clamping: if `[b,t]` and `[m,M]` pairwise overlap, `min (max b m) M` lies in
both. -/
theorem pick_between (b t m M : ℚ) (hbt : b ≤ t) (hmM : m ≤ M) (hmt : m ≤ t) (hbM : b ≤ M) :
    b ≤ min (max b m) M ∧ min (max b m) M ≤ t ∧
      m ≤ min (max b m) M ∧ min (max b m) M ≤ M :=
  ⟨le_min (le_max_left _ _) hbM, min_le_of_left_le (max_le hbt hmt),
    le_min (le_max_right _ _) hmM, min_le_right _ _⟩


/-- Membership of a point `(la, lo)` in the closed rectangle spanned by an
area's two corner points, in either orientation. -/
def inRect (area : MapRectangle) (la lo : ℚ) : Prop :=
  min area.topLeft.lat area.bottomRight.lat ≤ la ∧
    la ≤ max area.topLeft.lat area.bottomRight.lat ∧
    min area.topLeft.long area.bottomRight.long ≤ lo ∧
    lo ≤ max area.topLeft.long area.bottomRight.long

instance (area : MapRectangle) (la lo : ℚ) : Decidable (inRect area la lo) := by
  unfold inRect
  infer_instance

/-- Membership of a point `(la, lo)` in an emitted tile, whose corners are
already canonical (`topLeft` = max lat / min long). -/
def inTile (t : HeatmapRectangle) (la lo : ℚ) : Prop :=
  t.bottomRight.lat ≤ la ∧ la ≤ t.topLeft.lat ∧
    t.topLeft.long ≤ lo ∧ lo ≤ t.bottomRight.long

instance (t : HeatmapRectangle) (la lo : ℚ) : Decidable (inTile t la lo) := by
  unfold inTile
  infer_instance

/-- Coverage: with positive steps directed from `topLeft` toward
`bottomRight` on both axes, every point of the requested rectangle lies in
some emitted tile. -/
theorem mock_covers (rand : ℚ → ℚ → ℚ) (req : HeatmapRequest)
    (hw : 0 < req.tileWidth) (hh : 0 < req.tileHeight)
    (hlat : req.area.topLeft.lat < req.area.bottomRight.lat)
    (hlong : req.area.topLeft.long < req.area.bottomRight.long)
    (la lo : ℚ) (hp : inRect req.area la lo) :
    ∃ t ∈ mockHeatmapData rand req, inTile t la lo := by
  have hw0 : req.tileWidth ≠ 0 := ne_of_gt hw
  have hh0 : req.tileHeight ≠ 0 := ne_of_gt hh
  rw [mockHeatmapData_eq rand req hw0 hh0]
  obtain ⟨hp1, hp2, hp3, hp4⟩ := hp
  rw [min_eq_left hlat.le] at hp1
  rw [max_eq_right hlat.le] at hp2
  rw [min_eq_left hlong.le] at hp3
  rw [max_eq_right hlong.le] at hp4
  obtain ⟨k, hk, hk1, hk2⟩ :=
    cell_cover req.tileHeight hh req.area.topLeft.lat req.area.bottomRight.lat la hp1 hp2 hlat
  obtain ⟨j, hj, hj1, hj2⟩ :=
    cell_cover req.tileWidth hw req.area.topLeft.long req.area.bottomRight.long lo hp3 hp4 hlong
  have hkc : latCell req k = alignStart req.area.topLeft.lat req.tileHeight +
      (k : ℚ) * req.tileHeight := rfl
  have hjc : longCell req j = alignStart req.area.topLeft.long req.tileWidth +
      (j : ℚ) * req.tileWidth := rfl
  have hktop : latCell req k + req.tileHeight =
      alignStart req.area.topLeft.lat req.tileHeight + ((k : ℚ) + 1) * req.tileHeight := by
    rw [hkc]
    ring
  have hjtop : longCell req j + req.tileWidth =
      alignStart req.area.topLeft.long req.tileWidth + ((j : ℚ) + 1) * req.tileWidth := by
    rw [hjc]
    ring
  -- the emitted tile of cell (k, j)
  refine ⟨{ count := ⌊rand (latCell req k) (longCell req j) * 100⌋
            neighborCount := none
            topLeft := ⟨latCell req k + req.tileHeight, longCell req j⟩
            bottomRight := ⟨latCell req k, longCell req j + req.tileWidth⟩ }, ?_, ?_, ?_, ?_, ?_⟩
  · rw [mem_mockCells]
    refine ⟨k, hk, j, hj, ?_⟩
    simp only [mkCell]
    rw [max_eq_right (by linarith : latCell req k ≤ latCell req k + req.tileHeight)]
    rw [min_eq_left (by linarith : latCell req k ≤ latCell req k + req.tileHeight)]
    rw [min_eq_left (by linarith : longCell req j ≤ longCell req j + req.tileWidth)]
    rw [max_eq_right (by linarith : longCell req j ≤ longCell req j + req.tileWidth)]
    rw [min_eq_left hlat.le, max_eq_right hlat.le, min_eq_left hlong.le, max_eq_right hlong.le]
    have hG1 : ¬(latCell req k + req.tileHeight < req.area.topLeft.lat ∧
        latCell req k < req.area.topLeft.lat) := by
      rintro ⟨hgg, -⟩
      rw [hktop] at hgg
      linarith
    have hG2 : ¬(latCell req k > req.area.bottomRight.lat ∧
        latCell req k + req.tileHeight > req.area.bottomRight.lat) := by
      rintro ⟨hgg, -⟩
      rw [hkc] at hgg
      linarith
    have hG3 : ¬(longCell req j + req.tileWidth < req.area.topLeft.long ∨
        longCell req j > req.area.bottomRight.long) := by
      rintro (hgg | hgg)
      · rw [hjtop] at hgg
        linarith
      · rw [hjc] at hgg
        linarith
    rw [if_neg hG1, if_neg hG2, if_neg hG3]
  · show latCell req k ≤ la
    rw [hkc]
    linarith
  · show la ≤ latCell req k + req.tileHeight
    rw [hktop]
    linarith
  · show longCell req j ≤ lo
    rw [hjc]
    linarith
  · show lo ≤ longCell req j + req.tileWidth
    rw [hjtop]
    linarith

/-- Non-disjointness: every emitted tile meets the requested rectangle (the
three `continue` guards discard exactly the cells entirely outside it). -/
theorem mock_tile_meets (rand : ℚ → ℚ → ℚ) (req : HeatmapRequest)
    (t : HeatmapRectangle) (ht : t ∈ mockHeatmapData rand req) :
    ∃ la lo : ℚ, inTile t la lo ∧ inRect req.area la lo := by
  by_cases hdeg : req.tileWidth = 0 ∨ req.tileHeight = 0
  · rw [mockHeatmapData, dif_pos hdeg] at ht
    simp at ht
  · push_neg at hdeg
    rw [mockHeatmapData_eq rand req hdeg.1 hdeg.2, mem_mockCells] at ht
    obtain ⟨k, -, j, -, hcell⟩ := ht
    simp only [mkCell] at hcell
    split_ifs at hcell <;> try exact Option.noConfusion hcell
    rename_i hg1 hg2 hg3
    injection hcell with hcell
    subst hcell
    push_neg at hg1 hg2 hg3
    set b := min (latCell req k) (latCell req k + req.tileHeight) with hb
    set tp := max (latCell req k) (latCell req k + req.tileHeight) with htp
    set lf := min (longCell req j) (longCell req j + req.tileWidth) with hlf
    set rt := max (longCell req j) (longCell req j + req.tileWidth) with hrt
    set m := min req.area.topLeft.lat req.area.bottomRight.lat with hm
    set M := max req.area.topLeft.lat req.area.bottomRight.lat with hM
    set mL := min req.area.topLeft.long req.area.bottomRight.long with hmL
    set ML := max req.area.topLeft.long req.area.bottomRight.long with hML
    have hbt : b ≤ tp := min_le_max
    have hlr : lf ≤ rt := min_le_max
    have hmM : m ≤ M := min_le_max
    have hmLML : mL ≤ ML := min_le_max
    have hmtp : m ≤ tp := by
      by_contra hc
      push_neg at hc
      have h2 := hg1 hc
      linarith
    have hbM : b ≤ M := by
      by_contra hc
      push_neg at hc
      have h2 := hg2 hc
      linarith
    obtain ⟨hg3a, hg3b⟩ := hg3
    obtain ⟨q1a, q1b, q1c, q1d⟩ := pick_between b tp m M hbt hmM hmtp hbM
    obtain ⟨q2a, q2b, q2c, q2d⟩ := pick_between lf rt mL ML hlr hmLML hg3a hg3b
    exact ⟨min (max b m) M, min (max lf mL) ML, ⟨q1a, q1b, q2a, q2b⟩, q1c, q1d, q2c, q2d⟩

/-- The canonical corner pair of a walked cell on one axis is a pair of
consecutive integer multiples of the absolute step. -/
theorem cell_bounds_1d (s : ℚ) (hs : s ≠ 0) (c : ℚ) (hz : ∃ z : ℤ, c = (z : ℚ) * s)
    (k : ℕ) (v : ℚ) (hv : v = c + (k : ℚ) * s) :
    ∃ a : ℤ, min v (v + s) = (a : ℚ) * |s| ∧ max v (v + s) = ((a : ℚ) + 1) * |s| := by
  obtain ⟨z, hzc⟩ := hz
  rcases hs.lt_or_lt with hneg | hpos
  · refine ⟨-(z + (k : ℤ) + 1), ?_, ?_⟩
    · rw [min_eq_right (by linarith : v + s ≤ v), abs_of_neg hneg, hv, hzc]
      push_cast
      ring
    · rw [max_eq_left (by linarith : v + s ≤ v), abs_of_neg hneg, hv, hzc]
      push_cast
      ring
  · refine ⟨z + (k : ℤ), ?_, ?_⟩
    · rw [min_eq_left (by linarith : v ≤ v + s), abs_of_pos hpos, hv, hzc]
      push_cast
      ring
    · rw [max_eq_right (by linarith : v ≤ v + s), abs_of_pos hpos, hv, hzc]
      push_cast
      ring

/-- Every emitted tile's boundaries are consecutive integer multiples of the
absolute step on each axis. -/
theorem mock_tile_bounds (rand : ℚ → ℚ → ℚ) (req : HeatmapRequest)
    (t : HeatmapRectangle) (ht : t ∈ mockHeatmapData rand req) :
    ∃ a b : ℤ,
      t.bottomRight.lat = (a : ℚ) * |req.tileHeight| ∧
      t.topLeft.lat = ((a : ℚ) + 1) * |req.tileHeight| ∧
      t.topLeft.long = (b : ℚ) * |req.tileWidth| ∧
      t.bottomRight.long = ((b : ℚ) + 1) * |req.tileWidth| := by
  by_cases hdeg : req.tileWidth = 0 ∨ req.tileHeight = 0
  · rw [mockHeatmapData, dif_pos hdeg] at ht
    simp at ht
  · push_neg at hdeg
    rw [mockHeatmapData_eq rand req hdeg.1 hdeg.2, mem_mockCells] at ht
    obtain ⟨k, -, j, -, hcell⟩ := ht
    simp only [mkCell] at hcell
    split_ifs at hcell
    injection hcell with hcell
    subst hcell
    obtain ⟨a, ha1, ha2⟩ := cell_bounds_1d req.tileHeight hdeg.2
      (alignStart req.area.topLeft.lat req.tileHeight)
      (alignStart_intMul req.area.topLeft.lat req.tileHeight) k (latCell req k) rfl
    obtain ⟨b, hb1, hb2⟩ := cell_bounds_1d req.tileWidth hdeg.1
      (alignStart req.area.topLeft.long req.tileWidth)
      (alignStart_intMul req.area.topLeft.long req.tileWidth) j (longCell req j) rfl
    exact ⟨a, b, ha1, ha2, hb1, hb2⟩

/-- Two cells of the same grid whose open spans overlap are the same cell. -/
theorem consecutive_multiples_eq (u : ℚ) (hu : 0 < u) (a b : ℤ)
    (h1 : (a : ℚ) * u < ((b : ℚ) + 1) * u) (h2 : (b : ℚ) * u < ((a : ℚ) + 1) * u) :
    a = b := by
  have h3 : (a : ℚ) < (b : ℚ) + 1 := (mul_lt_mul_right hu).mp h1
  have h4 : (b : ℚ) < (a : ℚ) + 1 := (mul_lt_mul_right hu).mp h2
  have h5 : a < b + 1 := by exact_mod_cast h3
  have h6 : b < a + 1 := by exact_mod_cast h4
  omega

/-- A pending `setTimeout` callback: its handle and the delay (ms) it was
scheduled with. -/
structure Timer where
  id : ℕ
  delay : ℚ
deriving DecidableEq, Repr

/-- The mutable fields of `AdjustableUpdater`
(`helpers/adjustableUpdater.ts`), together with the browser timer queue:
`pending` is the multiset of not-yet-fired timeouts (in creation order),
`timer` is the class's `this.timer` handle, and `inFlight` counts callback
executions that have started and not yet completed (the class's `executing`
flag is set exactly while one is in flight). -/
structure UpdaterState where
  intervalMs : ℚ
  timer : Option ℕ
  running : Bool
  executing : Bool
  disposed : Bool
  pending : List Timer
  nextId : ℕ
  inFlight : ℕ
deriving DecidableEq, Repr

namespace AdjustableUpdater

/-- `normalizeInterval` (lines 78-81): non-finite or non-positive seconds
clamp to 0.05 (ℚ has no non-finite values, so only the sign test remains). -/
def normalizeInterval (seconds : ℚ) : ℚ :=
  if seconds ≤ 0 then 1 / 20 else seconds

/-- The constructor (lines 18-21). -/
def initState (intervalSeconds : ℚ) : UpdaterState :=
  { intervalMs := normalizeInterval intervalSeconds * 1000
    timer := none
    running := false
    executing := false
    disposed := false
    pending := []
    nextId := 0
    inFlight := 0 }

/-- `clearTimeout(id)`: the identified timeout, if still pending, will not
fire. -/
def clearTimeout (st : UpdaterState) (id : ℕ) : UpdaterState :=
  { st with pending := st.pending.filter (fun tm => tm.id ≠ id) }

/-- `window.setTimeout(() => this.run(), this.intervalMs)` plus the
assignment `this.timer = ...` in `schedule` (line 95): a fresh timeout is
enqueued and its handle stored; any previously stored handle is overwritten
without being cleared. -/
def setTimeoutNew (st : UpdaterState) : UpdaterState :=
  { st with pending := st.pending ++ [⟨st.nextId, st.intervalMs⟩]
            timer := some st.nextId
            nextId := st.nextId + 1 }

/-- `schedule` (lines 93-96). -/
def schedule (st : UpdaterState) : UpdaterState :=
  if st.running = false ∨ st.disposed = true then st
  else setTimeoutNew st

/-- The synchronous prefix of `run` (lines 98-107): the guards and, when the
callback is actually invoked, setting `executing`. The returned flag tells
whether the callback was invoked. -/
def runStart (st : UpdaterState) : UpdaterState × Bool :=
  if st.running = false ∨ st.disposed = true then (st, false)
  else if st.executing = true then (schedule st, false)
  else ({ st with executing := true, inFlight := st.inFlight + 1 }, true)

/-- Completion of the awaited callback: the `finally` block of `run`
(lines 111-114): clear `executing`, then `schedule()`. -/
def complete (st : UpdaterState) : UpdaterState :=
  schedule { st with executing := false, inFlight := st.inFlight - 1 }

/-- `start(immediate)` (lines 24-32). -/
def start (st : UpdaterState) (immediate : Bool) : UpdaterState × Bool :=
  if st.disposed = true ∨ st.running = true then (st, false)
  else
    let st1 := { st with running := true }
    if immediate then runStart st1 else (schedule st1, false)

/-- `stop` (lines 35-41). -/
def stop (st : UpdaterState) : UpdaterState :=
  let st1 := { st with running := false }
  match st1.timer with
  | some id => { clearTimeout st1 id with timer := none }
  | none => st1

/-- `setIntervalSeconds` (lines 56-65). -/
def setIntervalSeconds (st : UpdaterState) (seconds : ℚ) : UpdaterState :=
  let ms := normalizeInterval seconds * 1000
  if ms = st.intervalMs then st
  else
    let st1 := { st with intervalMs := ms }
    if st1.running = true then
      let st2 :=
        match st1.timer with
        | some id => clearTimeout st1 id
        | none => st1
      schedule st2
    else st1

/-- `triggerNow` (lines 68-75). -/
def triggerNow (st : UpdaterState) : UpdaterState × Bool :=
  if st.running = false then (st, false)
  else
    let st1 :=
      match st.timer with
      | some id => { clearTimeout st id with timer := none }
      | none => st
    runStart st1

/-- `dispose` (lines 83-86). -/
def dispose (st : UpdaterState) : UpdaterState :=
  { stop st with disposed := true }

/-- The externally visible events of the poller: its public methods, a
pending timeout firing, and the in-flight callback completing. -/
inductive UpdEvent where
  | start (immediate : Bool)
  | stop
  | setIntervalSeconds (seconds : ℚ)
  | triggerNow
  | dispose
  | fire (tm : Timer)
  | complete

/-- One event step; the second component tells whether this step invoked
the driven callback. A firing timeout is spent (removed from `pending`)
and enters `run`. -/
def stepE (st : UpdaterState) (e : UpdEvent) : UpdaterState × Bool :=
  match e with
  | .start b => start st b
  | .stop => (stop st, false)
  | .setIntervalSeconds s => (setIntervalSeconds st s, false)
  | .triggerNow => triggerNow st
  | .dispose => (dispose st, false)
  | .fire tm => runStart { st with pending := st.pending.erase tm }
  | .complete => (complete st, false)

/-- When an event can occur: a timeout fires only while pending, and a
completion only while an execution is in flight. Methods may be called at
any time. -/
def Enabled (st : UpdaterState) (e : UpdEvent) : Prop :=
  match e with
  | .fire tm => tm ∈ st.pending
  | .complete => st.executing = true
  | _ => True

/-- States reachable from a freshly constructed updater. -/
inductive Reachable : UpdaterState → Prop where
  | init (s : ℚ) : Reachable (initState s)
  | step (st : UpdaterState) (e : UpdEvent) : Reachable st → Enabled st e →
      Reachable (stepE st e).1

/-- The state invariant: at most one callback execution is in flight, the
`executing` flag marks exactly that, and a running poller is not disposed. -/
def InvU (st : UpdaterState) : Prop :=
  st.inFlight ≤ 1 ∧ (st.executing = true ↔ st.inFlight = 1) ∧
    (st.running = true → st.disposed = false)

theorem invU_schedule (st : UpdaterState) (h : InvU st) : InvU (schedule st) := by
  unfold schedule setTimeoutNew
  split_ifs
  · exact h
  · exact h

theorem invU_step (st : UpdaterState) (e : UpdEvent) (h : InvU st) (he : Enabled st e) :
    InvU (stepE st e).1 := by
  obtain ⟨h1, h2, h3⟩ := h
  cases e with
  | start b =>
    cases b <;>
      simp only [stepE, start, runStart, schedule, setTimeoutNew, InvU] <;>
      split_ifs <;>
      simp_all <;>
      omega
  | stop =>
    rcases htm : st.timer with - | id <;>
      simp_all [stepE, stop, clearTimeout, InvU]
  | setIntervalSeconds s =>
    rcases htm : st.timer with - | id <;>
      simp only [stepE, setIntervalSeconds, schedule, setTimeoutNew, clearTimeout, InvU, htm] <;>
      split_ifs <;>
      simp_all
  | triggerNow =>
    rcases htm : st.timer with - | id <;>
      simp only [stepE, triggerNow, runStart, schedule, setTimeoutNew, clearTimeout, InvU, htm] <;>
      split_ifs <;>
      simp_all <;>
      omega
  | dispose =>
    rcases htm : st.timer with - | id <;>
      simp_all [stepE, dispose, stop, clearTimeout, InvU]
  | fire tm =>
    simp only [stepE, runStart, schedule, setTimeoutNew, InvU] <;>
    split_ifs <;>
    simp_all <;>
    omega
  | complete =>
    simp only [stepE, complete, schedule, setTimeoutNew, InvU, Enabled] at he ⊢
    split_ifs <;>
    simp_all

/-- Every reachable state satisfies the invariant. -/
theorem invU_reachable (st : UpdaterState) (h : Reachable st) : InvU st := by
  induction h with
  | init s => exact ⟨by simp [initState], by simp [initState], by simp [initState]⟩
  | step st e hst he ih => exact invU_step st e ih he

/-- A timeout that fires while the callback is executing (and the poller is
running, not disposed) does not invoke the callback: the overdue tick is
dropped and exactly one fresh tick is scheduled at the current interval. -/
theorem fire_skip (st : UpdaterState) (tm : Timer) (hex : st.executing = true)
    (hrun : st.running = true) (hdis : st.disposed = false) :
    stepE st (.fire tm) =
      ({ st with pending := st.pending.erase tm ++ [⟨st.nextId, st.intervalMs⟩]
                 timer := some st.nextId
                 nextId := st.nextId + 1 }, false) := by
  simp [stepE, runStart, schedule, setTimeoutNew, hex, hrun, hdis]

end AdjustableUpdater

/-- The two slider modes (`TimeSliderOptions.type` in
`components/timeSlider.ts`): `"hours"` or `"days-of-week"`. -/
inductive SliderType where
  | hours
  | daysOfWeek
deriving DecidableEq, Repr

/-- Which handle is being dragged. -/
inductive SliderHandle where
  | left
  | right
deriving DecidableEq, Repr

/-- `TimeSliderState` from `components/timeSlider.ts`, together with the
mode (`options.type`), which the class reads and writes alongside it. -/
structure TimeSliderState where
  type : SliderType
  isDragging : Bool
  activeHandle : Option SliderHandle
  leftValue : ℚ
  rightValue : ℚ
  steps : ℚ
deriving DecidableEq, Repr

namespace TimeSlider

/-- `steps = options.type === "hours" ? 24 : 7` (constructor line 38 and
`setType` line 118). -/
def stepsFor : SliderType → ℚ
  | .hours => 24
  | .daysOfWeek => 7

/-- `clamp(v, min, max) = Math.min(Math.max(v, min), max)` (line 290). -/
def clamp (v lo hi : ℚ) : ℚ :=
  min (max v lo) hi

/-- `Math.round`: round half toward positive infinity. -/
def jsRound (x : ℚ) : ℚ :=
  ((⌊x + 1 / 2⌋ : ℤ) : ℚ)

/-- The state set up by the `TimeSlider` constructor (lines 36-52). -/
def mkTimeSlider (ty : SliderType) (initialLeft initialRight : Option ℚ) : TimeSliderState :=
  let steps := stepsFor ty
  let defaultLeft := initialLeft.getD 0
  let defaultRight := initialRight.getD (steps - 1)
  { type := ty
    isDragging := false
    activeHandle := none
    leftValue := clamp defaultLeft 0 (steps - 1)
    rightValue := clamp defaultRight 0 (steps - 1)
    steps := steps }

/-- `getRange` (lines 96-98). -/
def getRange (s : TimeSliderState) : ℚ × ℚ :=
  (s.leftValue, s.rightValue)

/-- `setRange` (lines 100-109). -/
def setRange (s : TimeSliderState) (left right : ℚ) : TimeSliderState :=
  let mx := s.steps - 1
  { s with leftValue := clamp (min left right) 0 mx
           rightValue := clamp (max left right) 0 mx }

/-- `setType` (lines 111-139): no-op on the same type, otherwise rescale
both values proportionally, `Math.round`, and safety-clamp. -/
def setType (s : TimeSliderState) (newType : SliderType) : TimeSliderState :=
  if newType = s.type then s
  else
    let oldSteps := s.steps
    let oldLeft := s.leftValue
    let oldRight := s.rightValue
    let leftFrac := oldLeft / (oldSteps - 1)
    let rightFrac := oldRight / (oldSteps - 1)
    let newSteps := stepsFor newType
    let l1 := jsRound (leftFrac * (newSteps - 1))
    let r1 := jsRound (rightFrac * (newSteps - 1))
    let l2 := clamp l1 0 (newSteps - 1)
    let r2 := clamp r1 l2 (newSteps - 1)
    { s with type := newType
             steps := newSteps
             leftValue := l2
             rightValue := r2 }

/-- The slider's state invariant: the step count matches the mode and the
two values are an ordered pair inside `[0, steps-1]`. -/
def SliderInv (s : TimeSliderState) : Prop :=
  s.steps = stepsFor s.type ∧ 0 ≤ s.leftValue ∧
    s.leftValue ≤ s.rightValue ∧ s.rightValue ≤ s.steps - 1

instance (s : TimeSliderState) : Decidable (SliderInv s) := by
  unfold SliderInv
  infer_instance

theorem stepsFor_pos (ty : SliderType) : (1 : ℚ) ≤ stepsFor ty := by
  cases ty <;> norm_num [stepsFor]

theorem slider_setRange_inv (s : TimeSliderState) (l r : ℚ)
    (hsteps : s.steps = stepsFor s.type) : SliderInv (setRange s l r) := by
  have h1 : (0 : ℚ) ≤ s.steps - 1 := by
    have := stepsFor_pos s.type
    rw [hsteps]
    linarith
  refine ⟨hsteps, ?_, ?_, ?_⟩
  · exact le_min (le_max_right _ _) h1
  · exact min_le_min (max_le_max (min_le_max : min l r ≤ max l r) le_rfl) le_rfl
  · exact min_le_right _ _

theorem slider_setType_inv (s : TimeSliderState) (ty : SliderType)
    (h : SliderInv s) : SliderInv (setType s ty) := by
  unfold setType
  split_ifs with hty
  · exact h
  · have h1 : (0 : ℚ) ≤ stepsFor ty - 1 := by
      have := stepsFor_pos ty
      linarith
    refine ⟨rfl, ?_, ?_, ?_⟩
    · exact le_min (le_max_right _ _) h1
    · exact le_min (le_max_right _ _) (min_le_right _ _)
    · exact min_le_right _ _

end TimeSlider

theorem swapLat_le (p : MapPoint × MapPoint) :
    (swapLatIfNeeded p).2.lat ≤ (swapLatIfNeeded p).1.lat := by
  unfold swapLatIfNeeded
  split_ifs with h
  · exact le_of_lt h
  · exact not_lt.mp h

theorem normalizePair_le (a b : MapPoint) :
    (normalizePair a b).2.lat ≤ (normalizePair a b).1.lat ∧
      (normalizePair a b).1.long ≤ (normalizePair a b).2.long := by
  unfold normalizePair swapLongIfNeeded
  split_ifs with h2
  · exact ⟨swapLat_le (a, b), le_of_lt h2⟩
  · exact ⟨swapLat_le (a, b), not_lt.mp h2⟩

theorem normalizePair_id (a b : MapPoint) (h1 : b.lat ≤ a.lat) (h2 : a.long ≤ b.long) :
    normalizePair a b = (a, b) := by
  unfold normalizePair swapLatIfNeeded swapLongIfNeeded
  rw [if_neg (not_lt.mpr h1)]
  exact if_neg (not_lt.mpr h2)

/-- **C5** For every pair of input points (in any corner order), the
rectangle produced by the normalization step of `makeRequest` satisfies
`topLeft.lat ≥ bottomRight.lat` and `topLeft.long ≤ bottomRight.long`, and
the normalization is idempotent on its own output corners. -/
theorem c5_normalization :
    ∀ (a b : MapPoint) (cx cy : ℚ) (ts te : ℤ),
      (makeRequest a b cx cy ts te).2.area.topLeft = (normalizePair a b).1 ∧
      (makeRequest a b cx cy ts te).2.area.bottomRight = (normalizePair a b).2 ∧
      (normalizePair a b).2.lat ≤ (normalizePair a b).1.lat ∧
      (normalizePair a b).1.long ≤ (normalizePair a b).2.long ∧
      normalizePair (normalizePair a b).1 (normalizePair a b).2 = normalizePair a b := by
  intro a b cx cy ts te
  obtain ⟨h1, h2⟩ := normalizePair_le a b
  refine ⟨rfl, rfl, h1, h2, ?_⟩
  rw [normalizePair_id (normalizePair a b).1 (normalizePair a b).2 h1 h2]

/-- **C7** `makeRequest` performs no validation of the counts: with
`countX = countY = 0` it returns an ordinary query record whose tile sizes
are the raw division-by-zero artifacts (`Infinity` in the JS runtime; total
division makes them `0` in this ℚ model), instead of failing fast with an
error — the function has no error path at all. -/
theorem c7_no_validation :
    (makeRequest ⟨1, 0⟩ ⟨0, 1⟩ 0 0 0 0).2 =
      { area := ⟨⟨1, 0⟩, ⟨0, 1⟩⟩
        timeStart := 0
        timeEnd := 0
        tileWidth := (1 - 0) / 0
        tileHeight := (1 - 0) / 0 } ∧
    (makeRequest ⟨1, 0⟩ ⟨0, 1⟩ 0 0 0 0).2.tileWidth = 0 ∧
    (makeRequest ⟨1, 0⟩ ⟨0, 1⟩ 0 0 0 0).2.tileHeight = 0 := by
  refine ⟨?_, ?_, ?_⟩ <;> norm_num [makeRequest, normalizePair, swapLatIfNeeded, swapLongIfNeeded]

/-- **C9** The corner swaps in `makeRequest` are destructive: for the input
`topLeft = (0,0)`, `bottomRight = (1,1)` the caller's two point objects end
up swapped (`topLeft.lat` becomes `1`), so the normalization is not a pure
function on the caller's objects. -/
theorem c9_mutation :
    (makeRequest ⟨0, 0⟩ ⟨1, 1⟩ 2 2 0 0).1 = (⟨1, 0⟩, ⟨0, 1⟩) ∧
    (makeRequest ⟨0, 0⟩ ⟨1, 1⟩ 2 2 0 0).1 ≠ (⟨0, 0⟩, ⟨1, 1⟩) := by
  constructor
  · norm_num [makeRequest, normalizePair, swapLatIfNeeded, swapLongIfNeeded]
  · norm_num [makeRequest, normalizePair, swapLatIfNeeded, swapLongIfNeeded, Prod.ext_iff, MapPoint.mk.injEq]

/-- **C10** `setRange` and `setType` preserve the `TimeSlider` state
invariant `0 ≤ leftValue ≤ rightValue ≤ steps - 1` (with `steps` = 24 in
hours mode and 7 in days-of-week mode), so `getRange` returns an ordered
in-range pair after any such call. -/
theorem c10_slider_invariant :
    ∀ (s : TimeSliderState) (l r : ℚ) (ty : SliderType), TimeSlider.SliderInv s →
      TimeSlider.SliderInv (TimeSlider.setRange s l r) ∧
      TimeSlider.SliderInv (TimeSlider.setType s ty) ∧
      (0 ≤ (TimeSlider.getRange (TimeSlider.setRange s l r)).1 ∧
        (TimeSlider.getRange (TimeSlider.setRange s l r)).1 ≤
          (TimeSlider.getRange (TimeSlider.setRange s l r)).2 ∧
        (TimeSlider.getRange (TimeSlider.setRange s l r)).2 ≤
          (TimeSlider.setRange s l r).steps - 1) ∧
      (0 ≤ (TimeSlider.getRange (TimeSlider.setType s ty)).1 ∧
        (TimeSlider.getRange (TimeSlider.setType s ty)).1 ≤
          (TimeSlider.getRange (TimeSlider.setType s ty)).2 ∧
        (TimeSlider.getRange (TimeSlider.setType s ty)).2 ≤
          (TimeSlider.setType s ty).steps - 1) := by
  intro s l r ty hinv
  have h1 := TimeSlider.slider_setRange_inv s l r hinv.1
  have h2 := TimeSlider.slider_setType_inv s ty hinv
  exact ⟨h1, h2, ⟨h1.2.1, h1.2.2.1, h1.2.2.2⟩, ⟨h2.2.1, h2.2.2.1, h2.2.2.2⟩⟩

/-- Witness for the C10 theorem: a freshly constructed hours slider
satisfies the invariant, and both operations preserve it there (with
`setRange` called with reversed arguments and `setType` switching modes). -/
theorem c10_witness :
    TimeSlider.SliderInv (TimeSlider.mkTimeSlider .hours none none) ∧
    TimeSlider.SliderInv
      (TimeSlider.setRange (TimeSlider.mkTimeSlider .hours none none) 5 2) ∧
    TimeSlider.SliderInv
      (TimeSlider.setType (TimeSlider.mkTimeSlider .hours none none) .daysOfWeek) := by
  have hinv : TimeSlider.SliderInv (TimeSlider.mkTimeSlider .hours none none) := by
    norm_num [TimeSlider.SliderInv, TimeSlider.mkTimeSlider, TimeSlider.clamp,
      TimeSlider.stepsFor, min_def, max_def]
  exact ⟨hinv,
    (c10_slider_invariant (TimeSlider.mkTimeSlider .hours none none) 5 2 .daysOfWeek hinv).1,
    (c10_slider_invariant (TimeSlider.mkTimeSlider .hours none none) 5 2 .daysOfWeek hinv).2.1⟩

/-- Evaluation: on the normalized rectangle `topLeft=(1,0)`,
`bottomRight=(0,1)` with positive tile sizes `1/2`, the latitude walk starts
at `1` stepping `+1/2` while requiring `lat < 0`, so it runs zero times and
the aligner returns no tiles, for every random source. -/
theorem mock_unitReq_empty (rand : ℚ → ℚ → ℚ) :
    mockHeatmapData rand ⟨⟨⟨1, 0⟩, ⟨0, 1⟩⟩, 0, 0, 1 / 2, 1 / 2⟩ = [] := by
  rw [mockHeatmapData_eq _ _ (by norm_num) (by norm_num)]
  unfold mockCells
  rw [walk_eq]
  have h1 : alignStart (1 : ℚ) (1 / 2) = 1 := by
    unfold alignStart
    rw [if_pos (by norm_num : (0 : ℚ) < 1 / 2)]
    have h2 : ⌊(1 : ℚ) / (1 / 2)⌋ = 2 := by
      rw [Int.floor_eq_iff]
      norm_num
    rw [h2]
    norm_num
  simp only [h1]
  have h3 : ⌈((-2) : ℚ)⌉ = -2 := by
    rw [Int.ceil_eq_iff]
    norm_num
  norm_num
  intro a ha
  rw [h3] at ha
  omega

/-- Evaluation of the aligner on `topLeft=(1,0)`, `bottomRight=(0,1)` with
`tileWidth = 1/2`, `tileHeight = -1/2` (the sign convention the walk
supports): four tiles, and the emitted records carry no `neighborCount`
property. -/
theorem mock_webReq_tiles (rand : ℚ → ℚ → ℚ) :
    (mockHeatmapData rand ⟨⟨⟨1, 0⟩, ⟨0, 1⟩⟩, 0, 0, 1 / 2, -(1 / 2)⟩).map
      (fun t => t.neighborCount) = [none, none, none, none] := by
  rw [mockHeatmapData_eq _ _ (by norm_num) (by norm_num)]
  unfold mockCells
  rw [walk_eq, walk_eq]
  have ha1 : alignStart (1 : ℚ) (-(1 / 2)) = 1 := by
    unfold alignStart
    rw [if_neg (by norm_num)]
    have h2 : ⌈(1 : ℚ) / (-(1 / 2))⌉ = -2 := by
      rw [Int.ceil_eq_iff]
      norm_num
    rw [h2]
    norm_num
  have ha2 : alignStart (0 : ℚ) (1 / 2) = 0 := by
    unfold alignStart
    rw [if_pos (by norm_num : (0 : ℚ) < 1 / 2)]
    have h2 : ⌊(0 : ℚ) / (1 / 2)⌋ = 0 := by
      rw [Int.floor_eq_iff]
      norm_num
    rw [h2]
    norm_num
  norm_num [ha1, ha2]
  have ht : (Int.toNat 2) = 2 := rfl
  norm_num [ht, List.range_succ, mkCell, min_def, max_def]
  norm_num [List.filterMap_cons, Function.comp]

/-- **C1** (code bug): for `topLeft=(1,0)`, `bottomRight=(0,1)`,
`countX = countY = 2`, `makeRequest` yields `tileWidth = tileHeight = 1/2`
as specified, but `getMockHeatmap` on that exact query returns an empty tile
list instead of the four tiles tiling the rectangle: the builder makes
`tileHeight` positive (`topLeft.lat - bottomRight.lat`) while the aligner's
latitude walk starts at `topLeft.lat` and moves in the step's direction,
away from `bottomRight.lat`. -/
theorem c1_request_builder_and_aligner :
    ∀ rand : ℚ → ℚ → ℚ,
      (makeRequest ⟨1, 0⟩ ⟨0, 1⟩ 2 2 0 0).2.tileWidth = 1 / 2 ∧
      (makeRequest ⟨1, 0⟩ ⟨0, 1⟩ 2 2 0 0).2.tileHeight = 1 / 2 ∧
      getMockHeatmap rand (makeRequest ⟨1, 0⟩ ⟨0, 1⟩ 2 2 0 0).2 = ⟨some ⟨[]⟩⟩ := by
  intro rand
  have hreq : (makeRequest ⟨1, 0⟩ ⟨0, 1⟩ 2 2 0 0).2 =
      ⟨⟨⟨1, 0⟩, ⟨0, 1⟩⟩, 0, 0, 1 / 2, 1 / 2⟩ := by
    norm_num [makeRequest, normalizePair, swapLatIfNeeded, swapLongIfNeeded]
  rw [hreq]
  refine ⟨rfl, rfl, ?_⟩
  rw [getMockHeatmap, mock_unitReq_empty]

/-- Counterexample to C3 as stated: the query `topLeft=(1,0)`,
`bottomRight=(0,1)`, `tileWidth = tileHeight = 1/2` has nonzero tile sizes,
the point `(1/2, 1/2)` lies in the query rectangle, yet the aligner returns
no tiles at all, so the union of returned tiles does not contain the
rectangle. -/
theorem c3_counterexample :
    (⟨⟨⟨1, 0⟩, ⟨0, 1⟩⟩, 0, 0, 1 / 2, 1 / 2⟩ : HeatmapRequest).tileWidth ≠ 0 ∧
    (⟨⟨⟨1, 0⟩, ⟨0, 1⟩⟩, 0, 0, 1 / 2, 1 / 2⟩ : HeatmapRequest).tileHeight ≠ 0 ∧
    inRect (⟨⟨1, 0⟩, ⟨0, 1⟩⟩ : MapRectangle) (1 / 2) (1 / 2) ∧
    mockHeatmapData (fun _ _ => 0) ⟨⟨⟨1, 0⟩, ⟨0, 1⟩⟩, 0, 0, 1 / 2, 1 / 2⟩ = [] ∧
    ¬∃ t ∈ mockHeatmapData (fun _ _ => 0) ⟨⟨⟨1, 0⟩, ⟨0, 1⟩⟩, 0, 0, 1 / 2, 1 / 2⟩,
      inTile t (1 / 2) (1 / 2) := by
  refine ⟨by norm_num, by norm_num, ?_, mock_unitReq_empty _, ?_⟩
  · unfold inRect
    norm_num [min_def, max_def]
  · rw [mock_unitReq_empty]
    simp

/-- **C3** (amended): with positive tile sizes and the area oriented so that
`topLeft.lat < bottomRight.lat` and `topLeft.long < bottomRight.long` (the
orientation the walk actually traverses), the union of the returned tiles
contains the whole query rectangle; and for every query with nonzero tile
sizes, no returned tile is entirely disjoint from the query rectangle. -/
theorem c3_grid_coverage :
    (∀ (rand : ℚ → ℚ → ℚ) (req : HeatmapRequest),
      0 < req.tileWidth → 0 < req.tileHeight →
      req.area.topLeft.lat < req.area.bottomRight.lat →
      req.area.topLeft.long < req.area.bottomRight.long →
      ∀ la lo : ℚ, inRect req.area la lo →
        ∃ t ∈ mockHeatmapData rand req, inTile t la lo) ∧
    (∀ (rand : ℚ → ℚ → ℚ) (req : HeatmapRequest) (t : HeatmapRectangle),
      t ∈ mockHeatmapData rand req →
      ∃ la lo : ℚ, inTile t la lo ∧ inRect req.area la lo) :=
  ⟨fun rand req hw hh hlat hlong la lo hp => mock_covers rand req hw hh hlat hlong la lo hp,
    fun rand req t ht => mock_tile_meets rand req t ht⟩

/-- Witness for the C3 theorem at the query `topLeft=(0,0)`,
`bottomRight=(1,1)`, tile sizes `1/2`: the point `(1/2, 1/2)` of the
rectangle is covered by some returned tile. -/
theorem c3_witness :
    (0 : ℚ) < 1 / 2 ∧
    inRect (⟨⟨0, 0⟩, ⟨1, 1⟩⟩ : MapRectangle) (1 / 2) (1 / 2) ∧
    (∃ t ∈ mockHeatmapData (fun _ _ => 0) ⟨⟨⟨0, 0⟩, ⟨1, 1⟩⟩, 0, 0, 1 / 2, 1 / 2⟩,
      inTile t (1 / 2) (1 / 2)) := by
  refine ⟨by norm_num, ?_, ?_⟩
  · unfold inRect
    norm_num [min_def, max_def]
  · exact c3_grid_coverage.1 (fun _ _ => 0) ⟨⟨⟨0, 0⟩, ⟨1, 1⟩⟩, 0, 0, 1 / 2, 1 / 2⟩
      (by norm_num) (by norm_num) (by norm_num) (by norm_num) (1 / 2) (1 / 2)
      (by unfold inRect; norm_num [min_def, max_def])

/-- **C8** (code bug): on a query that yields four tiles, every record
emitted by the mock generator lacks the `neighborCount` property required by
the declared `HeatmapRectangle` type (the push at `api/heatmap.ts` lines
122-126 sets only `count`, `topLeft`, `bottomRight`), for every random
source — so the record is not the claimed `neighborCount = 0`. -/
theorem c8_no_neighbor_count :
    ∀ rand : ℚ → ℚ → ℚ,
      (mockHeatmapData rand ⟨⟨⟨1, 0⟩, ⟨0, 1⟩⟩, 0, 0, 1 / 2, -(1 / 2)⟩).map
        (fun t => t.neighborCount) = [none, none, none, none] ∧
      (mockHeatmapData rand ⟨⟨⟨1, 0⟩, ⟨0, 1⟩⟩, 0, 0, 1 / 2, -(1 / 2)⟩).length = 4 ∧
      ∀ t ∈ mockHeatmapData rand ⟨⟨⟨1, 0⟩, ⟨0, 1⟩⟩, 0, 0, 1 / 2, -(1 / 2)⟩,
        t.neighborCount = none := by
  intro rand
  have hmap := mock_webReq_tiles rand
  refine ⟨hmap, ?_, ?_⟩
  · have h2 := congrArg List.length hmap
    simpa using h2
  · intro t ht
    have h3 : t.neighborCount ∈
        (mockHeatmapData rand ⟨⟨⟨1, 0⟩, ⟨0, 1⟩⟩, 0, 0, 1 / 2, -(1 / 2)⟩).map
          (fun t => t.neighborCount) := List.mem_map_of_mem _ ht
    rw [hmap] at h3
    simpa using h3

theorem mem_mock_nonzero (rand : ℚ → ℚ → ℚ) (req : HeatmapRequest)
    (t : HeatmapRectangle) (ht : t ∈ mockHeatmapData rand req) :
    req.tileWidth ≠ 0 ∧ req.tileHeight ≠ 0 := by
  by_cases hdeg : req.tileWidth = 0 ∨ req.tileHeight = 0
  · rw [mockHeatmapData, dif_pos hdeg] at ht
    simp at ht
  · push_neg at hdeg
    exact hdeg

theorem intMul_abs (x s : ℚ) (a : ℤ) (h : x = (a : ℚ) * |s|) :
    ∃ c : ℤ, x = (c : ℚ) * s := by
  rcases abs_cases s with ⟨habs, -⟩ | ⟨habs, -⟩
  · exact ⟨a, by rw [h, habs]⟩
  · refine ⟨-a, ?_⟩
    rw [h, habs]
    push_cast
    ring

/-- **C4** Every boundary coordinate of every emitted tile is an integer
multiple of the corresponding step; consequently tiles emitted for two
queries with identical (nonzero) tile sizes whose interiors overlap have
identical absolute corner points — the grid is viewport-independent. -/
theorem c4_grid_alignment :
    (∀ (rand : ℚ → ℚ → ℚ) (req : HeatmapRequest) (t : HeatmapRectangle),
      t ∈ mockHeatmapData rand req →
      (∃ a : ℤ, t.topLeft.lat = (a : ℚ) * req.tileHeight) ∧
      (∃ a : ℤ, t.bottomRight.lat = (a : ℚ) * req.tileHeight) ∧
      (∃ b : ℤ, t.topLeft.long = (b : ℚ) * req.tileWidth) ∧
      (∃ b : ℤ, t.bottomRight.long = (b : ℚ) * req.tileWidth)) ∧
    (∀ (rand1 rand2 : ℚ → ℚ → ℚ) (req1 req2 : HeatmapRequest) (t1 t2 : HeatmapRectangle),
      req1.tileWidth = req2.tileWidth → req1.tileHeight = req2.tileHeight →
      t1 ∈ mockHeatmapData rand1 req1 → t2 ∈ mockHeatmapData rand2 req2 →
      t2.bottomRight.lat < t1.topLeft.lat → t1.bottomRight.lat < t2.topLeft.lat →
      t1.topLeft.long < t2.bottomRight.long → t2.topLeft.long < t1.bottomRight.long →
      t1.topLeft = t2.topLeft ∧ t1.bottomRight = t2.bottomRight) := by
  constructor
  · intro rand req t ht
    obtain ⟨a, b, h1, h2, h3, h4⟩ := mock_tile_bounds rand req t ht
    refine ⟨intMul_abs _ _ (a + 1) (by rw [h2]; push_cast; ring),
      intMul_abs _ _ a h1,
      intMul_abs _ _ b h3,
      intMul_abs _ _ (b + 1) (by rw [h4]; push_cast; ring)⟩
  · intro rand1 rand2 req1 req2 t1 t2 hw hh ht1 ht2 ho1 ho2 ho3 ho4
    obtain ⟨hw1, hh1⟩ := mem_mock_nonzero rand1 req1 t1 ht1
    obtain ⟨a1, b1, p1, p2, p3, p4⟩ := mock_tile_bounds rand1 req1 t1 ht1
    obtain ⟨a2, b2, q1, q2, q3, q4⟩ := mock_tile_bounds rand2 req2 t2 ht2
    rw [← hw] at q3 q4
    rw [← hh] at q1 q2
    have habsH : 0 < |req1.tileHeight| := abs_pos.mpr hh1
    have habsW : 0 < |req1.tileWidth| := abs_pos.mpr hw1
    rw [q1, p2] at ho1
    rw [p1, q2] at ho2
    rw [p3, q4] at ho3
    rw [q3, p4] at ho4
    have ha : a1 = a2 := consecutive_multiples_eq _ habsH a1 a2 ho2 ho1
    have hb : b1 = b2 := consecutive_multiples_eq _ habsW b1 b2 ho3 ho4
    constructor
    · have hlat : t1.topLeft.lat = t2.topLeft.lat := by rw [p2, q2, ha]
      have hlong : t1.topLeft.long = t2.topLeft.long := by rw [p3, q3, hb]
      cases htl1 : t1.topLeft
      cases htl2 : t2.topLeft
      rw [htl1, htl2] at hlat hlong
      simp only [MapPoint.mk.injEq]
      exact ⟨hlat, hlong⟩
    · have hlat : t1.bottomRight.lat = t2.bottomRight.lat := by rw [p1, q1, ha]
      have hlong : t1.bottomRight.long = t2.bottomRight.long := by rw [p4, q4, hb]
      cases hbr1 : t1.bottomRight
      cases hbr2 : t2.bottomRight
      rw [hbr1, hbr2] at hlat hlong
      simp only [MapPoint.mk.injEq]
      exact ⟨hlat, hlong⟩

/-- Witness for the C4 theorem: the cell `[0,1/2] × [0,1/2]` is emitted both
for the viewport `(0,0)-(1,1)` and for the shifted viewport
`(1/4,1/4)-(1,1)` (with different random counts), and the theorem yields
that the two tiles' corner points coincide exactly. -/
theorem c4_witness :
    (⟨0, none, ⟨1 / 2, 0⟩, ⟨0, 1 / 2⟩⟩ : HeatmapRectangle) ∈
      mockHeatmapData (fun _ _ => 0) ⟨⟨⟨0, 0⟩, ⟨1, 1⟩⟩, 0, 0, 1 / 2, 1 / 2⟩ ∧
    (⟨50, none, ⟨1 / 2, 0⟩, ⟨0, 1 / 2⟩⟩ : HeatmapRectangle) ∈
      mockHeatmapData (fun _ _ => 1 / 2) ⟨⟨⟨1 / 4, 1 / 4⟩, ⟨1, 1⟩⟩, 0, 0, 1 / 2, 1 / 2⟩ ∧
    ((⟨0, none, ⟨1 / 2, 0⟩, ⟨0, 1 / 2⟩⟩ : HeatmapRectangle).topLeft =
        (⟨50, none, ⟨1 / 2, 0⟩, ⟨0, 1 / 2⟩⟩ : HeatmapRectangle).topLeft ∧
      (⟨0, none, ⟨1 / 2, 0⟩, ⟨0, 1 / 2⟩⟩ : HeatmapRectangle).bottomRight =
        (⟨50, none, ⟨1 / 2, 0⟩, ⟨0, 1 / 2⟩⟩ : HeatmapRectangle).bottomRight) := by
  have ha0 : alignStart (0 : ℚ) (1 / 2) = 0 := by
    unfold alignStart
    rw [if_pos (by norm_num : (0 : ℚ) < 1 / 2)]
    have h2 : ⌊(0 : ℚ) / (1 / 2)⌋ = 0 := by
      rw [Int.floor_eq_iff]
      norm_num
    rw [h2]
    norm_num
  have ha4 : alignStart (1 / 4 : ℚ) (1 / 2) = 0 := by
    unfold alignStart
    rw [if_pos (by norm_num : (0 : ℚ) < 1 / 2)]
    have h2 : ⌊(1 / 4 : ℚ) / (1 / 2)⌋ = 0 := by
      rw [Int.floor_eq_iff]
      norm_num
    rw [h2]
    norm_num
  have hm1 : (⟨0, none, ⟨1 / 2, 0⟩, ⟨0, 1 / 2⟩⟩ : HeatmapRectangle) ∈
      mockHeatmapData (fun _ _ => 0) ⟨⟨⟨0, 0⟩, ⟨1, 1⟩⟩, 0, 0, 1 / 2, 1 / 2⟩ := by
    rw [mockHeatmapData_eq _ _ (by norm_num) (by norm_num), mem_mockCells]
    refine ⟨0, ?_, 0, ?_, ?_⟩
    · unfold nLat
      norm_num [ha0]
    · unfold nLong
      norm_num [ha0]
    · unfold latCell longCell
      norm_num [ha0, mkCell, min_def, max_def]
  have hm2 : (⟨50, none, ⟨1 / 2, 0⟩, ⟨0, 1 / 2⟩⟩ : HeatmapRectangle) ∈
      mockHeatmapData (fun _ _ => 1 / 2) ⟨⟨⟨1 / 4, 1 / 4⟩, ⟨1, 1⟩⟩, 0, 0, 1 / 2, 1 / 2⟩ := by
    rw [mockHeatmapData_eq _ _ (by norm_num) (by norm_num), mem_mockCells]
    refine ⟨0, ?_, 0, ?_, ?_⟩
    · unfold nLat
      norm_num [ha4]
    · unfold nLong
      norm_num [ha4]
    · unfold latCell longCell
      norm_num [ha4, mkCell, min_def, max_def]
  exact ⟨hm1, hm2, c4_grid_alignment.2 (fun _ _ => 0) (fun _ _ => 1 / 2)
    ⟨⟨⟨0, 0⟩, ⟨1, 1⟩⟩, 0, 0, 1 / 2, 1 / 2⟩ ⟨⟨⟨1 / 4, 1 / 4⟩, ⟨1, 1⟩⟩, 0, 0, 1 / 2, 1 / 2⟩ _ _
    rfl rfl hm1 hm2 (by norm_num) (by norm_num) (by norm_num) (by norm_num)⟩

open AdjustableUpdater

/-- State after `new AdjustableUpdater(cb, 1); start(true)`: the first
callback execution is in flight, nothing scheduled. -/
def updOne : UpdaterState :=
  { intervalMs := 1000, timer := none, running := true, executing := true
    disposed := false, pending := [], nextId := 0, inFlight := 1 }

/-- State after additionally calling `setIntervalSeconds(2)` while the
first execution is still in flight: a tick at the new interval is already
pending. -/
def updExec : UpdaterState :=
  { intervalMs := 2000, timer := some 0, running := true, executing := true
    disposed := false, pending := [⟨0, 2000⟩], nextId := 1, inFlight := 1 }

/-- State after the first execution then completes: the completion handler
schedules a second tick while the earlier one is still pending (the
`schedule` method never clears the previous timeout). -/
def updDone : UpdaterState :=
  { intervalMs := 2000, timer := some 1, running := true, executing := false
    disposed := false, pending := [⟨0, 2000⟩, ⟨1, 2000⟩], nextId := 2, inFlight := 0 }

/-- State after `stop()`: only the handle stored in `this.timer` is
cleared; the earlier timeout survives as an orphan. -/
def updHalted : UpdaterState :=
  { intervalMs := 2000, timer := none, running := false, executing := false
    disposed := false, pending := [⟨0, 2000⟩], nextId := 2, inFlight := 0 }

/-- State after `start(true)` again: a second execution is in flight with
the orphan timeout still pending. -/
def updSecond : UpdaterState :=
  { intervalMs := 2000, timer := none, running := true, executing := true
    disposed := false, pending := [⟨0, 2000⟩], nextId := 2, inFlight := 1 }

/-- State after `stop()` during that second execution: stopped, an
execution in flight, and the orphan timeout still pending. -/
def updStopped : UpdaterState :=
  { intervalMs := 2000, timer := none, running := false, executing := true
    disposed := false, pending := [⟨0, 2000⟩], nextId := 2, inFlight := 1 }

theorem updOne_eq : (stepE (initState 1) (.start true)).1 = updOne := by
  norm_num [stepE, start, runStart, schedule, setTimeoutNew, initState,
    normalizeInterval, updOne]

theorem updExec_eq : (stepE updOne (.setIntervalSeconds 2)).1 = updExec := by
  norm_num [stepE, setIntervalSeconds, schedule, setTimeoutNew, clearTimeout,
    normalizeInterval, updOne, updExec]

theorem updDone_eq : (stepE updExec .complete).1 = updDone := by
  norm_num [stepE, complete, schedule, setTimeoutNew, updExec, updDone]

theorem updHalted_eq : (stepE updDone .stop).1 = updHalted := by
  norm_num [stepE, stop, clearTimeout, List.filter, updDone, updHalted]

theorem updSecond_eq : (stepE updHalted (.start true)).1 = updSecond := by
  norm_num [stepE, start, runStart, schedule, setTimeoutNew, updHalted, updSecond]

theorem updStopped_eq : (stepE updSecond .stop).1 = updStopped := by
  norm_num [stepE, stop, clearTimeout, updSecond, updStopped]

theorem updOne_reachable : Reachable updOne := by
  have h1 := Reachable.step (initState 1) (.start true) (.init 1) trivial
  rwa [updOne_eq] at h1

theorem updExec_reachable : Reachable updExec := by
  have h2 := Reachable.step updOne (.setIntervalSeconds 2) updOne_reachable trivial
  rwa [updExec_eq] at h2

theorem updStopped_reachable : Reachable updStopped := by
  have h3 := Reachable.step updExec .complete updExec_reachable rfl
  rw [updDone_eq] at h3
  have h4 := Reachable.step updDone .stop h3 trivial
  rw [updHalted_eq] at h4
  have h5 := Reachable.step updHalted (.start true) h4 trivial
  rw [updSecond_eq] at h5
  have h6 := Reachable.step updSecond .stop h5 trivial
  rwa [updStopped_eq] at h6

/-- **C2** (amended): in every reachable state at most one callback
execution is in flight; and when a pending tick fires while an execution is
in flight and the poller is still running, the callback is not invoked —
the overdue tick is dropped and exactly one fresh tick is scheduled at the
current interval, with everything else (including `inFlight` and
`intervalMs`) unchanged. -/
theorem c2_overlap_policy :
    (∀ st : UpdaterState, Reachable st → st.inFlight ≤ 1) ∧
    (∀ (st : UpdaterState) (tm : Timer), Reachable st →
      st.executing = true → st.running = true → tm ∈ st.pending →
      stepE st (.fire tm) =
        ({ st with pending := st.pending.erase tm ++ [⟨st.nextId, st.intervalMs⟩]
                   timer := some st.nextId
                   nextId := st.nextId + 1 }, false)) := by
  constructor
  · intro st h
    exact (invU_reachable st h).1
  · intro st tm h hex hrun _
    exact fire_skip st tm hex hrun ((invU_reachable st h).2.2 hrun)

/-- Witness for the C2 theorem: in the reachable state `updExec` (executing,
running, one tick pending) the pending tick fires, is dropped, and exactly
one replacement tick is scheduled; `inFlight` stays 1. -/
theorem c2_witness :
    Reachable updExec ∧ updExec.inFlight ≤ 1 ∧
    updExec.executing = true ∧ updExec.running = true ∧
    (⟨0, 2000⟩ : Timer) ∈ updExec.pending ∧
    stepE updExec (.fire ⟨0, 2000⟩) =
      ({ updExec with pending := updExec.pending.erase ⟨0, 2000⟩ ++ [⟨1, 2000⟩]
                      timer := some 1
                      nextId := 2 }, false) := by
  refine ⟨updExec_reachable, c2_overlap_policy.1 updExec updExec_reachable, rfl, rfl,
    ?_, ?_⟩
  · simp [updExec]
  · exact c2_overlap_policy.2 updExec ⟨0, 2000⟩ updExec_reachable rfl rfl
      (by simp [updExec])

/-- Counterexample to C2 as stated over all reachable states: in the
reachable state `updStopped` — the poller was stopped while the second
execution is still in flight, with an orphaned tick pending — that tick
fires while the execution has not completed, is not run (as claimed), but
no new tick is scheduled either: the claim's "exactly one new tick is
scheduled" fails for a stopped poller. -/
theorem c2_counterexample :
    Reachable updStopped ∧
    updStopped.executing = true ∧
    (⟨0, 2000⟩ : Timer) ∈ updStopped.pending ∧
    stepE updStopped (.fire ⟨0, 2000⟩) =
      ({ intervalMs := 2000, timer := none, running := false, executing := true
         disposed := false, pending := [], nextId := 2, inFlight := 1 }, false) := by
  refine ⟨updStopped_reachable, rfl, by simp [updStopped], ?_⟩
  norm_num [stepE, runStart, updStopped, List.erase_cons_head]

/-- **C6** (amended): calling `setIntervalSeconds` while an execution is in
flight (poller running, not disposed, interval actually changing) updates
the stored interval immediately and immediately schedules a tick at the new
interval — during the in-flight execution, not only after it finishes; the
tick scheduled when the execution completes also carries the new interval. -/
theorem c6_interval_change (st : UpdaterState) (v : ℚ)
    (hex : st.executing = true) (hrun : st.running = true) (hdis : st.disposed = false)
    (hne : normalizeInterval v * 1000 ≠ st.intervalMs) :
    (setIntervalSeconds st v).intervalMs = normalizeInterval v * 1000 ∧
    (setIntervalSeconds st v).executing = true ∧
    (∃ rest, (setIntervalSeconds st v).pending =
      rest ++ [⟨st.nextId, normalizeInterval v * 1000⟩]) ∧
    (complete (setIntervalSeconds st v)).pending =
      (setIntervalSeconds st v).pending ++
        [⟨st.nextId + 1, normalizeInterval v * 1000⟩] := by
  rcases htm : st.timer with - | id <;>
    simp only [setIntervalSeconds, schedule, setTimeoutNew, clearTimeout, complete,
      htm, if_neg hne, hrun, hdis, if_pos, if_true, if_false, Bool.false_eq_true,
      or_self, ite_false, ite_true] <;>
    refine ⟨rfl, hex, ⟨_, rfl⟩, rfl⟩

/-- Counterexample to C6 as stated: in the reachable state `updOne` (an
execution in flight, nothing pending) calling `setIntervalSeconds 2`
schedules a tick of delay 2000 ms immediately, while the execution is still
in flight — the new interval does not wait for the execution to finish
before taking effect on the schedule. -/
theorem c6_counterexample :
    Reachable updOne ∧
    updOne.executing = true ∧
    updOne.pending = [] ∧
    (setIntervalSeconds updOne 2).executing = true ∧
    (setIntervalSeconds updOne 2).pending = [⟨0, 2000⟩] ∧
    normalizeInterval 2 * 1000 = (2000 : ℚ) := by
  refine ⟨updOne_reachable, rfl, rfl, ?_, ?_, by norm_num [normalizeInterval]⟩ <;>
    norm_num [setIntervalSeconds, schedule, setTimeoutNew, clearTimeout,
      normalizeInterval, updOne]

/-- Witness for the C6 theorem at the state `updOne` with new interval 2 s:
the stored interval becomes 2000 ms at once, a 2000 ms tick is pending
during the execution, and the post-completion tick also carries 2000 ms. -/
theorem c6_witness :
    updOne.executing = true ∧ updOne.running = true ∧ updOne.disposed = false ∧
    normalizeInterval 2 * 1000 ≠ updOne.intervalMs ∧
    ((setIntervalSeconds updOne 2).intervalMs = normalizeInterval 2 * 1000 ∧
      (setIntervalSeconds updOne 2).executing = true ∧
      (∃ rest, (setIntervalSeconds updOne 2).pending =
        rest ++ [⟨updOne.nextId, normalizeInterval 2 * 1000⟩]) ∧
      (complete (setIntervalSeconds updOne 2)).pending =
        (setIntervalSeconds updOne 2).pending ++
          [⟨updOne.nextId + 1, normalizeInterval 2 * 1000⟩]) := by
  have hne : normalizeInterval 2 * 1000 ≠ updOne.intervalMs := by
    norm_num [normalizeInterval, updOne]
  exact ⟨rfl, rfl, rfl, hne, c6_interval_change updOne 2 rfl rfl rfl hne⟩

/-- Witness for the C8 theorem: the first emitted tile of the four-tile
query is a member of the output and, by the theorem, carries no
`neighborCount`. -/
theorem c8_witness :
    (⟨0, none, ⟨1, 0⟩, ⟨1 / 2, 1 / 2⟩⟩ : HeatmapRectangle) ∈
      mockHeatmapData (fun _ _ => 0) ⟨⟨⟨1, 0⟩, ⟨0, 1⟩⟩, 0, 0, 1 / 2, -(1 / 2)⟩ ∧
    (⟨0, none, ⟨1, 0⟩, ⟨1 / 2, 1 / 2⟩⟩ : HeatmapRectangle).neighborCount = none := by
  have ha1 : alignStart (1 : ℚ) (-(1 / 2)) = 1 := by
    unfold alignStart
    rw [if_neg (by norm_num)]
    have h2 : ⌈(1 : ℚ) / (-(1 / 2))⌉ = -2 := by
      rw [Int.ceil_eq_iff]
      norm_num
    rw [h2]
    norm_num
  have ha2 : alignStart (0 : ℚ) (1 / 2) = 0 := by
    unfold alignStart
    rw [if_pos (by norm_num : (0 : ℚ) < 1 / 2)]
    have h2 : ⌊(0 : ℚ) / (1 / 2)⌋ = 0 := by
      rw [Int.floor_eq_iff]
      norm_num
    rw [h2]
    norm_num
  have hmem : (⟨0, none, ⟨1, 0⟩, ⟨1 / 2, 1 / 2⟩⟩ : HeatmapRectangle) ∈
      mockHeatmapData (fun _ _ => 0) ⟨⟨⟨1, 0⟩, ⟨0, 1⟩⟩, 0, 0, 1 / 2, -(1 / 2)⟩ := by
    rw [mockHeatmapData_eq _ _ (by norm_num) (by norm_num), mem_mockCells]
    refine ⟨0, ?_, 0, ?_, ?_⟩
    · unfold nLat
      norm_num [ha1]
    · unfold nLong
      norm_num [ha2]
    · unfold latCell longCell
      norm_num [ha1, ha2, mkCell, min_def, max_def]
  exact ⟨hmem, (c8_no_neighbor_count (fun _ _ => 0)).2.2 _ hmem⟩
